import Mathlib

/-!
Verification development for the ez-dash enrichment pipeline.

Shallow embedding of the Python sources:
  - `src/utils/api_clients.py` — entity extraction, provider clients,
    `fetch_all_data` orchestrator;
  - `src/utils/cache.py` — `NewsCache` (file-based news cache);
  - `src/utils/database.py` — `DatabaseManager` (scratch relational store).

External providers (OpenWeatherMap, Tiingo) are modelled as function
stubs mapping the query key to an optional raw response; `none` stands
for any transport failure or non-200 status (the Python clients catch
every exception and map non-200 to `None`).  Wall-clock time is passed
explicitly.  Numeric payload fields (temperatures, prices) are carried
as `Int`: the code never computes with them, it only moves them around,
so their exact numeric type is irrelevant to every property proved here.
-/

namespace EzDash

/-- Python `needle in hay` on lists of characters (contiguous substring). -/
def containsSub (needle : List Char) : List Char → Bool
  | [] => needle.isEmpty
  | c :: t => needle.isPrefixOf (c :: t) || containsSub needle t

/-- Python `.lower()` (ASCII case folding, the only case used by the tables). -/
def lowerStr (s : String) : String := ⟨s.data.map Char.toLower⟩

/-- Python `.upper()`. -/
def upperStr (s : String) : String := ⟨s.data.map Char.toUpper⟩

/-- Python `needle in hay` on strings. -/
def strIn (needle hay : String) : Bool := containsSub needle.data hay.data

/-- A raw NewsAPI article dictionary, keeping only the keys the code reads.
`none` models an absent key (Python `dict.get` default fires).
`sourceName`: outer `Option` is the `source` key, inner is its `name` key. -/
structure Article where
  title : Option String
  description : Option String
  url : Option String
  sourceName : Option (Option String)
  publishedAt : Option String
deriving DecidableEq, Repr

/-- `f"{article.get('title', '')} {article.get('description', '')}"` -/
def articleText (a : Article) : String :=
  (a.title.getD "") ++ " " ++ (a.description.getD "")

/-- The `country_to_capital` dict of `extract_location_from_article`,
as an ordered association list (Python dicts iterate in insertion order). -/
def countryToCapital : List (String × String) :=
  [("France", "Paris"), ("French", "Paris"),
   ("Germany", "Berlin"), ("German", "Berlin"),
   ("Japan", "Tokyo"), ("Japanese", "Tokyo"),
   ("China", "Beijing"), ("Chinese", "Beijing"),
   ("United Kingdom", "London"), ("UK", "London"), ("Britain", "London"),
   ("British", "London"), ("England", "London"),
   ("Italy", "Rome"), ("Italian", "Rome"),
   ("Spain", "Madrid"), ("Spanish", "Madrid"),
   ("Russia", "Moscow"), ("Russian", "Moscow"),
   ("Australia", "Sydney"), ("Australian", "Sydney"),
   ("Canada", "Toronto"), ("Canadian", "Toronto"),
   ("India", "Mumbai"), ("Indian", "Mumbai"),
   ("Brazil", "Brasilia"), ("Brazilian", "Brasilia"),
   ("Mexico", "Mexico City"), ("Mexican", "Mexico City"),
   ("South Korea", "Seoul"), ("Korean", "Seoul"),
   ("Netherlands", "Amsterdam"), ("Dutch", "Amsterdam"),
   ("Switzerland", "Zurich"), ("Swiss", "Zurich"),
   ("Sweden", "Stockholm"), ("Swedish", "Stockholm"),
   ("Norway", "Oslo"), ("Norwegian", "Oslo"),
   ("Poland", "Warsaw"), ("Polish", "Warsaw"),
   ("Ukraine", "Kyiv"), ("Ukrainian", "Kyiv"),
   ("Israel", "Tel Aviv"), ("Israeli", "Tel Aviv"),
   ("Saudi Arabia", "Riyadh"), ("Saudi", "Riyadh"),
   ("UAE", "Dubai"), ("United Arab Emirates", "Dubai"),
   ("Singapore", "Singapore"),
   ("Thailand", "Bangkok"), ("Thai", "Bangkok"),
   ("Vietnam", "Hanoi"), ("Vietnamese", "Hanoi"),
   ("Indonesia", "Jakarta"), ("Indonesian", "Jakarta"),
   ("Philippines", "Manila"), ("Filipino", "Manila"),
   ("Taiwan", "Taipei"), ("Taiwanese", "Taipei"),
   ("Argentina", "Buenos Aires"), ("Argentine", "Buenos Aires"),
   ("Chile", "Santiago"), ("Chilean", "Santiago"),
   ("Egypt", "Cairo"), ("Egyptian", "Cairo"),
   ("South Africa", "Johannesburg"), ("South African", "Johannesburg"),
   ("Nigeria", "Lagos"), ("Nigerian", "Lagos"),
   ("Turkey", "Istanbul"), ("Turkish", "Istanbul"),
   ("Greece", "Athens"), ("Greek", "Athens"),
   ("Portugal", "Lisbon"), ("Portuguese", "Lisbon"),
   ("Ireland", "Dublin"), ("Irish", "Dublin"),
   ("Austria", "Vienna"), ("Austrian", "Vienna"),
   ("Belgium", "Brussels"), ("Belgian", "Brussels"),
   ("Denmark", "Copenhagen"), ("Danish", "Copenhagen"),
   ("Finland", "Helsinki"), ("Finnish", "Helsinki"),
   ("Czech Republic", "Prague"), ("Czech", "Prague"),
   ("Hungary", "Budapest"), ("Hungarian", "Budapest"),
   ("New Zealand", "Auckland")]

/-- The `international_cities` list of `extract_location_from_article`. -/
def internationalCities : List String :=
  ["London", "Paris", "Berlin", "Tokyo", "Sydney", "Toronto", "Mumbai",
   "Beijing", "Dubai", "Singapore", "Moscow", "Rome", "Madrid",
   "Amsterdam", "Brussels", "Vienna", "Zurich", "Hong Kong", "Seoul",
   "Bangkok", "Shanghai", "Osaka", "Melbourne", "Vancouver", "Montreal",
   "Dublin", "Edinburgh", "Manchester", "Munich", "Frankfurt", "Milan",
   "Barcelona", "Lisbon", "Prague", "Warsaw", "Budapest", "Stockholm",
   "Oslo", "Copenhagen", "Helsinki", "Athens", "Istanbul", "Tel Aviv",
   "Cairo", "Lagos", "Johannesburg", "Cape Town", "Nairobi", "Casablanca",
   "Buenos Aires", "Sao Paulo", "Rio de Janeiro", "Lima", "Bogota",
   "Santiago", "Mexico City", "Havana", "San Juan", "Jakarta", "Manila",
   "Hanoi", "Ho Chi Minh", "Kuala Lumpur", "Taipei", "Auckland", "Wellington"]

/-- The `us_cities` list of `extract_location_from_article`. -/
def usCities : List String :=
  ["New York", "Los Angeles", "Chicago", "Houston", "Phoenix",
   "Philadelphia", "San Antonio", "San Diego", "Dallas", "San Jose",
   "Austin", "Jacksonville", "Fort Worth", "Columbus", "Charlotte",
   "Seattle", "Denver", "Washington", "Boston", "Nashville",
   "Detroit", "Portland", "Las Vegas", "Memphis", "Louisville",
   "Baltimore", "Milwaukee", "Albuquerque", "Tucson", "Fresno",
   "Sacramento", "Kansas City", "Atlanta", "Miami", "Oakland",
   "Minneapolis", "Cleveland", "Tampa", "St. Louis", "Pittsburgh",
   "San Francisco", "New Orleans", "Honolulu", "Anchorage", "Salt Lake City",
   "Raleigh", "Richmond", "Hartford", "Providence", "Buffalo"]

/-- The `company_tickers` dict of `extract_companies_from_article`,
as an ordered (company, ticker) association list. -/
def companyTickers : List (String × String) :=
  [("Apple", "AAPL"), ("Microsoft", "MSFT"), ("Google", "GOOGL"),
   ("Amazon", "AMZN"), ("Meta", "META"), ("Facebook", "META"),
   ("Tesla", "TSLA"), ("Netflix", "NFLX"), ("Nvidia", "NVDA"),
   ("AMD", "AMD"), ("Intel", "INTC"), ("IBM", "IBM"),
   ("Walmart", "WMT"), ("Disney", "DIS"), ("Nike", "NKE"),
   ("Coca-Cola", "KO"), ("Pepsi", "PEP"), ("McDonald", "MCD"),
   ("Starbucks", "SBUX"), ("Boeing", "BA"), ("Ford", "F"),
   ("General Motors", "GM"), ("Exxon", "XOM"), ("Chevron", "CVX"),
   ("JPMorgan", "JPM"), ("Bank of America", "BAC"), ("Goldman", "GS"),
   ("Visa", "V"), ("Mastercard", "MA"), ("PayPal", "PYPL"),
   ("Uber", "UBER"), ("Lyft", "LYFT"), ("Airbnb", "ABNB"),
   ("Twitter", "X"), ("Snap", "SNAP"), ("Pinterest", "PINS"),
   ("Salesforce", "CRM"), ("Adobe", "ADBE"), ("Oracle", "ORCL"),
   ("Cisco", "CSCO"), ("Qualcomm", "QCOM"), ("Broadcom", "AVGO")]

/-- The first loop of `extract_location_from_article`: scan the country
table in order, returning the capital of the first country whose
lower-cased name occurs in the lower-cased text. -/
def findCapital (textLower : String) : List (String × String) → Option String
  | [] => none
  | (country, capital) :: rest =>
    if strIn (lowerStr country) textLower then some capital
    else findCapital textLower rest

/-- The second/third loops of `extract_location_from_article`: scan a city
list in order, returning the first city whose lower-cased name occurs in
the lower-cased text. -/
def findCity (textLower : String) : List String → Option String
  | [] => none
  | city :: rest =>
    if strIn (lowerStr city) textLower then some city
    else findCity textLower rest

/-- `NewsAPIClient.extract_location_from_article`: countries (mapped to
capitals) first, then international cities, then US cities, first match
wins; `none` if nothing matches. -/
def extract_location_from_article (a : Article) : Option String :=
  let textLower := lowerStr (articleText a)
  match findCapital textLower countryToCapital with
  | some cap => some cap
  | none =>
    match findCity textLower internationalCities with
    | some c => some c
    | none => findCity textLower usCities

/-- The loop of `extract_companies_from_article`: collect `(ticker, company)`
for every table entry whose company name occurs (case-insensitively) in the
text, in table order. -/
def findCompanies (textLower : String) : List (String × String) → List (String × String)
  | [] => []
  | (company, ticker) :: rest =>
    if strIn (lowerStr company) textLower then
      (ticker, company) :: findCompanies textLower rest
    else findCompanies textLower rest

/-- `NewsAPIClient.extract_companies_from_article`. -/
def extract_companies_from_article (a : Article) : List (String × String) :=
  findCompanies (lowerStr (articleText a)) companyTickers

example :
    extract_location_from_article
      { title := some "Apple announces new plant in France", description := some "",
        url := none, sourceName := none, publishedAt := none } = some "Paris" := by
  decide

example :
    extract_companies_from_article
      { title := some "Apple announces new plant in France", description := some "",
        url := none, sourceName := none, publishedAt := none } = [("AAPL", "Apple")] := by
  decide

/-- A raw OpenWeatherMap 200-response body, keeping the fields the code
reads.  `name` is optional (`data.get('name', city)`); the other fields are
accessed with mandatory indexing (`data['main']['temp']`, ...) — a body
lacking them raises, is caught, and yields `None`, which the stub models by
returning `none` outright. -/
structure WeatherResp where
  name : Option String
  temp : Int
  feelsLike : Int
  humidity : Int
  wdescription : String
  icon : String
deriving DecidableEq, Repr

/-- The normalized weather dictionary built by `get_weather_by_city`. -/
structure WeatherRecord where
  location : String
  temperature : Int
  feels_like : Int
  humidity : Int
  description : String
  icon : String
  date : String
deriving DecidableEq, Repr

/-- `WeatherAPIClient.get_weather_by_city`.  `wp` is the provider: `none`
models a non-200 status or a raised exception; `nowStr` is
`datetime.now().strftime('%Y-%m-%d %H:%M:%S')`. -/
def get_weather_by_city (wp : String → Option WeatherResp) (nowStr : String)
    (city : String) : Option WeatherRecord :=
  match wp city with
  | none => none
  | some d =>
    some { location := d.name.getD city, temperature := d.temp,
           feels_like := d.feelsLike, humidity := d.humidity,
           description := d.wdescription, icon := d.icon, date := nowStr }

/-- One entry of the Tiingo daily-price list; `close`, `adjClose` and `date`
are read with `dict.get`, so each is optional. -/
structure PriceEntry where
  close : Option Int
  adjClose : Option Int
  date : Option String
deriving DecidableEq, Repr

/-- The stock dictionary built by `get_stock_price`; `company_name` is
absent from the dict until a caller adds the key. -/
structure StockRecord where
  ticker : String
  price : Int
  date : String
  company_name : Option String
deriving DecidableEq, Repr

/-- `StockAPIClient.get_stock_price`.  `sp ticker` is the parsed JSON list
of a 200 response; `none` models non-200 or an exception.  An empty list
falls through to `return None`; otherwise the first entry is used, with
`latest.get('close', latest.get('adjClose', 0))` as the price and
`latest.get('date', datetime.now().isoformat())` as the date. -/
def get_stock_price (sp : String → Option (List PriceEntry)) (nowIso : String)
    (ticker : String) : Option StockRecord :=
  match sp ticker with
  | none => none
  | some [] => none
  | some (latest :: _) =>
    some { ticker := upperStr ticker,
           price := latest.close.getD (latest.adjClose.getD 0),
           date := latest.date.getD nowIso,
           company_name := none }

/-- `StockAPIClient.get_sp500_price`: `get_stock_price('SPY')` with the
ticker relabeled `'SPY'` and `company_name` set to `'S&P 500 ETF'`. -/
def get_sp500_price (sp : String → Option (List PriceEntry)) (nowIso : String) :
    Option StockRecord :=
  match get_stock_price sp nowIso "SPY" with
  | none => none
  | some r => some { r with ticker := "SPY", company_name := some "S&P 500 ETF" }

/-- The news dictionary built per article inside `fetch_all_data`. -/
structure NewsItem where
  headline : String
  description : String
  url : String
  source : String
  location : Option String
  published_date : String
deriving DecidableEq, Repr

/-- The `news_item` dict built in the `fetch_all_data` loop
(`article.get('title', 'No Title')`, `article.get('description', '')`,
`article.get('url', '')`, `article.get('source', {}).get('name', 'Unknown')`,
the extracted location, `article.get('publishedAt', now)`). -/
def newsItemOfArticle (nowIso : String) (a : Article) : NewsItem :=
  { headline := a.title.getD "No Title",
    description := a.description.getD "",
    url := a.url.getD "",
    source := (a.sourceName.getD none).getD "Unknown",
    location := extract_location_from_article a,
    published_date := a.publishedAt.getD nowIso }

/-- The mutable state of one `fetch_all_data` invocation: the three result
lists, the two dedup sets (`fetched_locations`, `fetched_tickers` — Python
sets, modelled as lists queried by membership), plus instrumentation traces
recording, in order, the argument of every `get_weather_by_city` and every
`get_stock_price` call issued. -/
structure FetchState where
  news : List NewsItem
  weather : List WeatherRecord
  stocks : List StockRecord
  fetchedLocations : List String
  fetchedTickers : List String
  weatherCalls : List String
  stockCalls : List String
deriving DecidableEq, Repr

/-- The empty state at the top of `fetch_all_data`. -/
def initState : FetchState := ⟨[], [], [], [], [], [], []⟩

/-- The inner `for ticker, company_name in companies` loop of
`fetch_all_data`: skip tickers already in `fetched_tickers`; otherwise call
the stock client and, only if it returns data, attach the company name,
append, and mark the ticker fetched. -/
def stockLoop (sp : String → Option (List PriceEntry)) (nowIso : String) :
    List (String × String) → FetchState → FetchState
  | [], st => st
  | (ticker, companyName) :: rest, st =>
    if st.fetchedTickers.contains ticker then
      stockLoop sp nowIso rest st
    else
      let st' := { st with stockCalls := st.stockCalls ++ [ticker] }
      match get_stock_price sp nowIso ticker with
      | none => stockLoop sp nowIso rest st'
      | some s =>
        stockLoop sp nowIso rest
          { st' with
            stocks := st'.stocks ++ [{ s with company_name := some companyName }],
            fetchedTickers := st'.fetchedTickers ++ [ticker] }

/-- The body of the `for article in articles` loop of `fetch_all_data`:
build and append the news item; fetch weather for a not-yet-seen extracted
location (marking it seen only when the client returns data); then run the
stock loop over the extracted companies. -/
def processArticle (wp : String → Option WeatherResp)
    (sp : String → Option (List PriceEntry)) (nowIso : String)
    (st : FetchState) (a : Article) : FetchState :=
  let location := extract_location_from_article a
  let st₁ := { st with news := st.news ++ [newsItemOfArticle nowIso a] }
  let st₂ :=
    match location with
    | none => st₁
    | some loc =>
      if st₁.fetchedLocations.contains loc then st₁
      else
        let stc := { st₁ with weatherCalls := st₁.weatherCalls ++ [loc] }
        match get_weather_by_city wp nowIso loc with
        | none => stc
        | some w =>
          { stc with weather := stc.weather ++ [w],
                     fetchedLocations := stc.fetchedLocations ++ [loc] }
  stockLoop sp nowIso (extract_companies_from_article a) st₂

/-- The article-scan phase of `fetch_all_data` (everything before the
S&P 500 fallback). -/
def scanArticles (wp : String → Option WeatherResp)
    (sp : String → Option (List PriceEntry)) (nowIso : String)
    (articles : List Article) : FetchState :=
  articles.foldl (processArticle wp sp nowIso) initState

/-- `fetch_all_data`, starting from the already-fetched article list (the
news download itself is an external call).  After the scan, if no stock was
collected, `get_sp500_price` is called (one more `get_stock_price('SPY')`,
recorded in the trace) and its result appended when present. -/
def fetch_all_data (wp : String → Option WeatherResp)
    (sp : String → Option (List PriceEntry)) (nowIso : String)
    (articles : List Article) : FetchState :=
  let st := scanArticles wp sp nowIso articles
  if st.stocks.isEmpty then
    let st' := { st with stockCalls := st.stockCalls ++ ["SPY"] }
    match get_sp500_price sp nowIso with
    | none => st'
    | some r => { st' with stocks := st'.stocks ++ [r] }
  else st

/-- The parsed content of one cache file (`src/utils/cache.py`), generic in
the cached item type.  `corrupt` models a file `json.load` rejects
(`JSONDecodeError`).  In `entry`, `cached_at` is the stored capture
timestamp after `datetime.fromisoformat(cached_data.get('cached_at', ''))`:
`none` when that parse raises `ValueError` (key absent, hence `''`, or an
unparsable string); `some t` when it parses, with time modelled as seconds
on an integer clock.  `data` is `cached_data.get('data', [])`. -/
inductive CacheFile (α : Type) where
  | corrupt : CacheFile α
  | entry (cached_at : Option Int) (date : String) (data : List α) : CacheFile α
deriving DecidableEq, Repr

/-- The cache directory: file name ↦ file content. -/
abbrev Store (α : Type) : Type := List (String × CacheFile α)

/-- Lookup of a file in the cache directory (`os.path.exists` + read). -/
def storeFind {α : Type} (s : Store α) (k : String) : Option (CacheFile α) :=
  match s with
  | [] => none
  | (k', v) :: t => if k' = k then some v else storeFind t k

/-- `os.remove` of a cache file. -/
def storeRemove {α : Type} (s : Store α) (k : String) : Store α :=
  match s with
  | [] => []
  | (k', v) :: t => if k' = k then storeRemove t k else (k', v) :: storeRemove t k

/-- File write (`open(cache_path, 'w')`): blind overwrite of the entry. -/
def storeSet {α : Type} (s : Store α) (k : String) (v : CacheFile α) : Store α :=
  match s with
  | [] => [(k, v)]
  | (k', v') :: t => if k' = k then (k, v) :: t else (k', v') :: storeSet t k v

/-- `NewsCache._get_cache_key`: the file name derived from the date.  The
source hashes `"news_" + date` with MD5 solely to obtain a stable file
name; the hash is modelled by the (injective) identity on that string. -/
def cacheKey (date : String) : String := "news_" ++ date

/-- The `NewsCache` configuration (`retention_days`, default 10). -/
structure NewsCache where
  retention_days : Int
deriving DecidableEq, Repr

/-- The retention window of a `NewsCache`, in seconds
(`timedelta(days=self.retention_days)`). -/
def NewsCache.retentionSeconds (c : NewsCache) : Int := c.retention_days * 86400

/-- `NewsCache.get` at integer clock time `now`, returning the result and
the cache directory after the read (the read may delete a file).  Missing
file → miss.  `json.load` failure or timestamp-parse failure → the
exception is caught, miss, file left in place.  A parsed capture time
strictly older than `now - retention` → file removed, miss.  Otherwise the
stored item list is returned. -/
def cache_get {α : Type} (c : NewsCache) (now : Int) (store : Store α)
    (date : String) : Option (List α) × Store α :=
  match storeFind store (cacheKey date) with
  | none => (none, store)
  | some CacheFile.corrupt => (none, store)
  | some (CacheFile.entry none _ _) => (none, store)
  | some (CacheFile.entry (some t) _ data) =>
    if t < now - c.retentionSeconds then (none, storeRemove store (cacheKey date))
    else (some data, store)

/-- `NewsCache.set` at clock time `now`: write
`{cached_at: now, date, data}` over whatever was stored for that date. -/
def cache_set {α : Type} (_c : NewsCache) (now : Int) (store : Store α)
    (date : String) (data : List α) : Store α :=
  storeSet store (cacheKey date) (CacheFile.entry (some now) date data)

/-- A row of the `news` table (`src/utils/database.py`). -/
structure NewsRow where
  id : Nat
  headline : String
  description : String
  url : String
  source : String
  location : Option String
  published_date : String
  created_at : String
deriving DecidableEq, Repr

/-- A row of the `weather` table. -/
structure WeatherRow where
  id : Nat
  location : String
  temperature : Int
  feels_like : Int
  humidity : Int
  description : String
  icon : String
  date : String
  news_id : Option Nat
deriving DecidableEq, Repr

/-- A row of the `stocks` table. -/
structure StockRow where
  id : Nat
  ticker : String
  company_name : String
  price : Int
  date : String
  news_id : Option Nat
deriving DecidableEq, Repr

/-- The three tables managed by `DatabaseManager`. -/
structure DB where
  news : List NewsRow
  weather : List WeatherRow
  stocks : List StockRow
deriving DecidableEq, Repr

/-- `DatabaseManager.update_stock_price`:
`UPDATE stocks SET price = ?, date = ? WHERE ticker = ?` — every stock row
whose ticker matches gets the new price and date; nothing else changes. -/
def update_stock_price (db : DB) (ticker : String) (price : Int) (date : String) : DB :=
  { db with
    stocks := db.stocks.map fun r =>
      if r.ticker = ticker then { r with price := price, date := date } else r }

/-! ### Store lemmas -/

theorem storeFind_storeSet_self {α : Type} (s : Store α) (k : String) (v : CacheFile α) :
    storeFind (storeSet s k v) k = some v := by
  induction s with
  | nil => simp [storeSet, storeFind]
  | cons h t ih =>
    obtain ⟨k', v'⟩ := h
    by_cases hk : k' = k
    · simp [storeSet, storeFind, hk]
    · simp [storeSet, storeFind, hk, ih]

theorem storeFind_storeRemove_self {α : Type} (s : Store α) (k : String) :
    storeFind (storeRemove s k) k = none := by
  induction s with
  | nil => simp [storeRemove, storeFind]
  | cons h t ih =>
    obtain ⟨k', v'⟩ := h
    by_cases hk : k' = k
    · simp [storeRemove, hk, ih]
    · simp [storeRemove, storeFind, hk, ih]

/-! ### Claim theorems: stock client and cache -/

/-- Claim C1 (code_bug evidence).  When the provider responds 200 with a
non-empty price list whose most recent entry has neither `close` nor
`adjClose`, `get_stock_price` does NOT return `None`: it synthesizes a
record with price `0` (`latest.get('close', latest.get('adjClose', 0))`). -/
theorem C1_zero_price_on_missing_close :
    get_stock_price
      (fun t => if t = "AAPL"
        then some [{ close := none, adjClose := none, date := some "2024-01-02" }]
        else none)
      "2024-01-05T00:00:00" "AAPL"
    = some { ticker := "AAPL", price := 0, date := "2024-01-02", company_name := none } := by
  rfl

/-- Claim C4 (counterexample).  A `get` that finds a corrupt (unparsable)
stored entry returns a miss but does NOT delete the underlying entry: the
`except` branch of `NewsCache.get` only prints and returns `None`, and the
file is still present after the read. -/
theorem C4_corrupt_entry_not_deleted :
    (cache_get (⟨10⟩ : NewsCache) 0
        ([(cacheKey "2024-01-01", CacheFile.corrupt)] : Store Nat) "2024-01-01").1 = none ∧
    (cache_get (⟨10⟩ : NewsCache) 0
        ([(cacheKey "2024-01-01", CacheFile.corrupt)] : Store Nat) "2024-01-01").2
      = [(cacheKey "2024-01-01", CacheFile.corrupt)] ∧
    storeFind ([(cacheKey "2024-01-01", CacheFile.corrupt)] : Store Nat)
        (cacheKey "2024-01-01") = some CacheFile.corrupt := by
  refine ⟨rfl, rfl, rfl⟩

/-- Claim C4 (amended).  On a read, a corrupt stored entry or an
unparsable capture timestamp is a miss with the entry left in place (no
deletion); only an entry whose parsed capture time is strictly older than
`now` minus the retention window is a miss that also deletes the entry. -/
theorem C4_lazy_expiry {α : Type} (c : NewsCache) (now : Int) (store : Store α)
    (date : String) :
    (storeFind store (cacheKey date) = some CacheFile.corrupt →
      cache_get c now store date = (none, store)) ∧
    (∀ d items, storeFind store (cacheKey date) = some (CacheFile.entry none d items) →
      cache_get c now store date = (none, store)) ∧
    (∀ t d items, storeFind store (cacheKey date) = some (CacheFile.entry (some t) d items) →
      t < now - c.retentionSeconds →
      cache_get c now store date = (none, storeRemove store (cacheKey date)) ∧
      storeFind (cache_get c now store date).2 (cacheKey date) = none) := by
  refine ⟨?_, ?_, ?_⟩
  · intro h
    simp [cache_get, h]
  · intro d items h
    simp [cache_get, h]
  · intro t d items h hexp
    have hg : cache_get c now store date = (none, storeRemove store (cacheKey date)) := by
      simp [cache_get, h, if_pos hexp]
    rw [hg]
    exact ⟨rfl, storeFind_storeRemove_self store (cacheKey date)⟩

/-- Claim C4 (witness for the amended theorem): the three branches
instantiated on concrete one-entry stores. -/
theorem C4_lazy_expiry_witness :
    cache_get (⟨10⟩ : NewsCache) 0
      ([(cacheKey "2024-01-01", CacheFile.corrupt)] : Store Nat) "2024-01-01"
      = (none, [(cacheKey "2024-01-01", CacheFile.corrupt)]) ∧
    cache_get (⟨10⟩ : NewsCache) 0
      ([(cacheKey "2024-01-01", CacheFile.entry none "2024-01-01" [7])] : Store Nat)
      "2024-01-01"
      = (none, [(cacheKey "2024-01-01", CacheFile.entry none "2024-01-01" [7])]) ∧
    cache_get (⟨10⟩ : NewsCache) 1000000
      ([(cacheKey "2024-01-01", CacheFile.entry (some 0) "2024-01-01" [7])] : Store Nat)
      "2024-01-01"
      = (none, []) := by
  refine ⟨?_, ?_, ?_⟩
  · exact (C4_lazy_expiry (⟨10⟩ : NewsCache) 0
      ([(cacheKey "2024-01-01", CacheFile.corrupt)] : Store Nat) "2024-01-01").1 (by decide)
  · exact (C4_lazy_expiry (⟨10⟩ : NewsCache) 0
      ([(cacheKey "2024-01-01", CacheFile.entry none "2024-01-01" [7])] : Store Nat)
      "2024-01-01").2.1 "2024-01-01" [7] (by decide)
  · have h := (C4_lazy_expiry (⟨10⟩ : NewsCache) 1000000
      ([(cacheKey "2024-01-01", CacheFile.entry (some 0) "2024-01-01" [7])] : Store Nat)
      "2024-01-01").2.2 0 "2024-01-01" [7] (by decide) (by decide)
    exact h.1.trans (by decide)

/-- Claim C5.  With the default 10-day retention, `put(date, items)`
followed immediately (same clock value) by `get(date)` returns exactly
`items`; and once strictly more than 10 days (864000 seconds) have elapsed
since the put, `get(date)` returns nothing and the stored entry is gone
from the directory after the read. -/
theorem C5_cache_roundtrip {α : Type} (store : Store α) (date : String)
    (items : List α) (tPut tLate : Int) (hLate : 864000 < tLate - tPut) :
    (cache_get (⟨10⟩ : NewsCache) tPut
        (cache_set (⟨10⟩ : NewsCache) tPut store date items) date).1 = some items ∧
    (cache_get (⟨10⟩ : NewsCache) tLate
        (cache_set (⟨10⟩ : NewsCache) tPut store date items) date).1 = none ∧
    storeFind
        (cache_get (⟨10⟩ : NewsCache) tLate
          (cache_set (⟨10⟩ : NewsCache) tPut store date items) date).2
        (cacheKey date) = none := by
  have hfind := storeFind_storeSet_self store (cacheKey date)
      (CacheFile.entry (some tPut) date items)
  refine ⟨?_, ?_, ?_⟩
  · simp only [cache_get, cache_set, hfind]
    rw [if_neg (by simp only [NewsCache.retentionSeconds]; omega)]
  · simp only [cache_get, cache_set, hfind]
    rw [if_pos (by simp only [NewsCache.retentionSeconds]; omega)]
  · simp only [cache_get, cache_set, hfind]
    rw [if_pos (by simp only [NewsCache.retentionSeconds]; omega)]
    exact storeFind_storeRemove_self _ _

/-- Claim C5 (witness): round-trip on a concrete store. -/
theorem C5_cache_roundtrip_witness :
    (cache_get (⟨10⟩ : NewsCache) 0
        (cache_set (⟨10⟩ : NewsCache) 0 ([] : Store Nat) "2024-01-01" [1, 2]) "2024-01-01").1
      = some [1, 2] ∧
    (cache_get (⟨10⟩ : NewsCache) 864001
        (cache_set (⟨10⟩ : NewsCache) 0 ([] : Store Nat) "2024-01-01" [1, 2]) "2024-01-01").1
      = none ∧
    storeFind
        (cache_get (⟨10⟩ : NewsCache) 864001
          (cache_set (⟨10⟩ : NewsCache) 0 ([] : Store Nat) "2024-01-01" [1, 2]) "2024-01-01").2
        (cacheKey "2024-01-01") = none :=
  C5_cache_roundtrip ([] : Store Nat) "2024-01-01" [1, 2] 0 864001 (by decide)

/-! ### Claim theorem: database frame property -/

/-- Claim C9.  `update_stock_price` leaves the `news` and `weather` tables
untouched and rewrites the `stocks` table row-for-row (no insertion, no
deletion): a row whose ticker matches gets the new price and date with its
`id`, `ticker`, `company_name` and `news_id` unchanged, and a row whose
ticker differs is left entirely unchanged. -/
theorem C9_update_stock_price_frame (db : DB) (ticker : String) (price : Int)
    (date : String) :
    (update_stock_price db ticker price date).news = db.news ∧
    (update_stock_price db ticker price date).weather = db.weather ∧
    (update_stock_price db ticker price date).stocks.length = db.stocks.length ∧
    List.Forall₂
      (fun old new =>
        new.id = old.id ∧ new.ticker = old.ticker ∧
        new.company_name = old.company_name ∧ new.news_id = old.news_id ∧
        (old.ticker = ticker → new.price = price ∧ new.date = date) ∧
        (old.ticker ≠ ticker → new = old))
      db.stocks (update_stock_price db ticker price date).stocks := by
  refine ⟨rfl, rfl, by simp [update_stock_price], ?_⟩
  simp only [update_stock_price]
  induction db.stocks with
  | nil => exact List.Forall₂.nil
  | cons r t ih =>
    refine List.Forall₂.cons ?_ ih
    by_cases hr : r.ticker = ticker
    · simp [hr]
    · simp [hr]

/-- Claim C9 (witness): the frame property on a concrete three-table
database holding two stock rows. -/
theorem C9_update_stock_price_frame_witness :
    (update_stock_price
        { news := [], weather := [],
          stocks := [{ id := 1, ticker := "AAPL", company_name := "Apple",
                       price := 100, date := "d0", news_id := none },
                     { id := 2, ticker := "MSFT", company_name := "Microsoft",
                       price := 50, date := "d0", news_id := some 3 }] }
        "AAPL" 200 "d1").news = [] ∧
    (update_stock_price
        { news := [], weather := [],
          stocks := [{ id := 1, ticker := "AAPL", company_name := "Apple",
                       price := 100, date := "d0", news_id := none },
                     { id := 2, ticker := "MSFT", company_name := "Microsoft",
                       price := 50, date := "d0", news_id := some 3 }] }
        "AAPL" 200 "d1").stocks
      = [{ id := 1, ticker := "AAPL", company_name := "Apple",
           price := 200, date := "d1", news_id := none },
         { id := 2, ticker := "MSFT", company_name := "Microsoft",
           price := 50, date := "d0", news_id := some 3 }] := by
  have h := C9_update_stock_price_frame
    { news := [], weather := [],
      stocks := [{ id := 1, ticker := "AAPL", company_name := "Apple",
                   price := 100, date := "d0", news_id := none },
                 { id := 2, ticker := "MSFT", company_name := "Microsoft",
                   price := 50, date := "d0", news_id := some 3 }] }
    "AAPL" 200 "d1"
  exact ⟨h.1, by decide⟩

/-! ### Extractor lemmas -/

theorem findCapital_eq_find? (tl : String) (l : List (String × String)) :
    findCapital tl l = (l.find? fun p => strIn (lowerStr p.1) tl).map Prod.snd := by
  induction l with
  | nil => rfl
  | cons p rest ih =>
    obtain ⟨c, cap⟩ := p
    by_cases h : strIn (lowerStr c) tl
    · simp [findCapital, h, List.find?_cons_of_pos]
    · simp [findCapital, h, List.find?_cons_of_neg, ih]

theorem findCity_eq_find? (tl : String) (l : List String) :
    findCity tl l = l.find? fun c => strIn (lowerStr c) tl := by
  induction l with
  | nil => rfl
  | cons c rest ih =>
    by_cases h : strIn (lowerStr c) tl
    · simp [findCity, h, List.find?_cons_of_pos]
    · simp [findCity, h, List.find?_cons_of_neg, ih]

/-- Claim C2.  `extract_location_from_article` is the three-phase
first-match scan: the capital of the first country-table entry whose name
occurs case-insensitively in title+description, else the first matching
international city, else the first matching US city, else nothing; in
particular, whenever some country-table key occurs in the text, the
result is the capital paired with the first such key in table order. -/
theorem C2_extract_location_first_match (a : Article) :
    (extract_location_from_article a =
      match (countryToCapital.find? fun p =>
          strIn (lowerStr p.1) (lowerStr (articleText a))).map Prod.snd with
      | some cap => some cap
      | none =>
        match internationalCities.find?
            (fun c => strIn (lowerStr c) (lowerStr (articleText a))) with
        | some c => some c
        | none => usCities.find? fun c => strIn (lowerStr c) (lowerStr (articleText a))) ∧
    ((∃ p ∈ countryToCapital, strIn (lowerStr p.1) (lowerStr (articleText a)) = true) →
      ∃ p ∈ countryToCapital,
        countryToCapital.find?
          (fun q => strIn (lowerStr q.1) (lowerStr (articleText a))) = some p ∧
        extract_location_from_article a = some p.2) := by
  have h1 : extract_location_from_article a =
      match (countryToCapital.find? fun p =>
          strIn (lowerStr p.1) (lowerStr (articleText a))).map Prod.snd with
      | some cap => some cap
      | none =>
        match internationalCities.find?
            (fun c => strIn (lowerStr c) (lowerStr (articleText a))) with
        | some c => some c
        | none => usCities.find? fun c => strIn (lowerStr c) (lowerStr (articleText a)) := by
    simp only [extract_location_from_article, findCapital_eq_find?, findCity_eq_find?]
  refine ⟨h1, ?_⟩
  rintro ⟨p, hmem, hp⟩
  have hsome : (countryToCapital.find?
      fun q => strIn (lowerStr q.1) (lowerStr (articleText a))).isSome := by
    rw [List.find?_isSome]
    exact ⟨p, hmem, hp⟩
  obtain ⟨q, hq⟩ := Option.isSome_iff_exists.mp hsome
  refine ⟨q, List.mem_of_find?_eq_some hq, hq, ?_⟩
  rw [h1, hq]
  rfl

/-- The §8 scenario article: title "Apple announces new plant in France",
empty description. -/
def artApplePlant : Article :=
  { title := some "Apple announces new plant in France", description := some "",
    url := none, sourceName := none, publishedAt := none }

/-- Claim C2 (witness): the scenario article mentions "France", and the
first-match scan yields its capital, Paris. -/
theorem C2_extract_location_witness :
    extract_location_from_article artApplePlant = some "Paris" := by
  obtain ⟨p, hmem, hfind, hres⟩ :=
    (C2_extract_location_first_match artApplePlant).2
      ⟨("France", "Paris"), by decide, by decide⟩
  have hfp : countryToCapital.find?
      (fun q => strIn (lowerStr q.1) (lowerStr (articleText artApplePlant)))
      = some ("France", "Paris") := by decide
  rw [hfind] at hfp
  injection hfp with hp
  rw [hp] at hres
  exact hres

/-! ### Orchestrator frame lemmas -/

theorem stockLoop_frame (sp : String → Option (List PriceEntry)) (nowIso : String)
    (cs : List (String × String)) (st : FetchState) :
    (stockLoop sp nowIso cs st).news = st.news ∧
    (stockLoop sp nowIso cs st).weather = st.weather ∧
    (stockLoop sp nowIso cs st).fetchedLocations = st.fetchedLocations ∧
    (stockLoop sp nowIso cs st).weatherCalls = st.weatherCalls := by
  induction cs generalizing st with
  | nil => exact ⟨rfl, rfl, rfl, rfl⟩
  | cons p rest ih =>
    obtain ⟨ticker, cname⟩ := p
    simp only [stockLoop]
    by_cases h : st.fetchedTickers.contains ticker
    · simp only [if_pos h]
      exact ih st
    · simp only [if_neg h]
      cases hg : get_stock_price sp nowIso ticker with
      | none => exact ih _
      | some s => exact ih _

theorem processArticle_news (wp : String → Option WeatherResp)
    (sp : String → Option (List PriceEntry)) (nowIso : String)
    (st : FetchState) (a : Article) :
    (processArticle wp sp nowIso st a).news = st.news ++ [newsItemOfArticle nowIso a] := by
  simp only [processArticle]
  rw [(stockLoop_frame sp nowIso _ _).1]
  split
  · rfl
  · split
    · rfl
    · split <;> rfl

theorem scanArticles_news (wp : String → Option WeatherResp)
    (sp : String → Option (List PriceEntry)) (nowIso : String)
    (articles : List Article) :
    (scanArticles wp sp nowIso articles).news = articles.map (newsItemOfArticle nowIso) := by
  suffices h : ∀ st, ((articles.foldl (processArticle wp sp nowIso) st).news
      = st.news ++ articles.map (newsItemOfArticle nowIso)) by
    simpa [scanArticles, initState] using h initState
  induction articles with
  | nil => intro st; simp
  | cons a rest ih =>
    intro st
    simp only [List.foldl_cons, List.map_cons]
    rw [ih, processArticle_news]
    simp

theorem fetch_all_data_news (wp : String → Option WeatherResp)
    (sp : String → Option (List PriceEntry)) (nowIso : String)
    (articles : List Article) :
    (fetch_all_data wp sp nowIso articles).news
      = (scanArticles wp sp nowIso articles).news := by
  simp only [fetch_all_data]
  split
  · split <;> rfl
  · rfl

/-- Claim C10.  For every provider behavior, `fetch_all_data` returns
exactly one news item per input article, in fetch order; a missing title
is replaced by "No Title", a missing source name (or missing source
object) by "Unknown", and missing description/url by the empty string. -/
theorem C10_news_one_per_article (wp : String → Option WeatherResp)
    (sp : String → Option (List PriceEntry)) (nowIso : String)
    (articles : List Article) :
    (fetch_all_data wp sp nowIso articles).news
      = articles.map (newsItemOfArticle nowIso) ∧
    (∀ a : Article, a.title = none →
      (newsItemOfArticle nowIso a).headline = "No Title") ∧
    (∀ a : Article, a.sourceName = none ∨ a.sourceName = some none →
      (newsItemOfArticle nowIso a).source = "Unknown") ∧
    (∀ a : Article, a.description = none →
      (newsItemOfArticle nowIso a).description = "") ∧
    (∀ a : Article, a.url = none → (newsItemOfArticle nowIso a).url = "") := by
  refine ⟨?_, ?_, ?_, ?_, ?_⟩
  · rw [fetch_all_data_news, scanArticles_news]
  · intro a h
    simp [newsItemOfArticle, h]
  · intro a h
    rcases h with h | h <;> simp [newsItemOfArticle, h]
  · intro a h
    simp [newsItemOfArticle, h]
  · intro a h
    simp [newsItemOfArticle, h]

/-- The all-keys-absent raw article. -/
def artEmpty : Article :=
  { title := none, description := none, url := none, sourceName := none,
    publishedAt := none }

/-- Claim C10 (witness): a one-article batch whose article has no keys at
all still yields exactly one news item, with every default filled in. -/
theorem C10_news_one_per_article_witness :
    (fetch_all_data (fun _ => none) (fun _ => none) "2024-01-01T00:00:00"
        [artEmpty]).news
      = [{ headline := "No Title", description := "", url := "", source := "Unknown",
           location := none, published_date := "2024-01-01T00:00:00" }] ∧
    (newsItemOfArticle "2024-01-01T00:00:00" artEmpty).headline = "No Title" ∧
    (newsItemOfArticle "2024-01-01T00:00:00" artEmpty).source = "Unknown" ∧
    (newsItemOfArticle "2024-01-01T00:00:00" artEmpty).description = "" ∧
    (newsItemOfArticle "2024-01-01T00:00:00" artEmpty).url = "" := by
  have h := C10_news_one_per_article (fun _ => none) (fun _ => none)
    "2024-01-01T00:00:00" [artEmpty]
  exact ⟨h.1.trans (by decide), h.2.1 artEmpty rfl, h.2.2.1 artEmpty (Or.inl rfl),
    h.2.2.2.1 artEmpty rfl, h.2.2.2.2 artEmpty rfl⟩

/-- Decomposition of `processArticle`: it is the stock loop run on an
intermediate state `st₂` whose news list gained exactly the article's news
item, whose stock-side fields are untouched, and whose weather-side fields
changed according to one of the four weather-phase outcomes. -/
theorem processArticle_eq (wp : String → Option WeatherResp)
    (sp : String → Option (List PriceEntry)) (nowIso : String)
    (st : FetchState) (a : Article) :
    ∃ st₂ : FetchState,
      processArticle wp sp nowIso st a
        = stockLoop sp nowIso (extract_companies_from_article a) st₂ ∧
      st₂.news = st.news ++ [newsItemOfArticle nowIso a] ∧
      st₂.stocks = st.stocks ∧ st₂.fetchedTickers = st.fetchedTickers ∧
      st₂.stockCalls = st.stockCalls ∧
      ((extract_location_from_article a = none ∧ st₂.weather = st.weather ∧
          st₂.fetchedLocations = st.fetchedLocations ∧
          st₂.weatherCalls = st.weatherCalls) ∨
       (∃ loc, extract_location_from_article a = some loc ∧
          st.fetchedLocations.contains loc = true ∧ st₂.weather = st.weather ∧
          st₂.fetchedLocations = st.fetchedLocations ∧
          st₂.weatherCalls = st.weatherCalls) ∨
       (∃ loc, extract_location_from_article a = some loc ∧
          st.fetchedLocations.contains loc = false ∧
          get_weather_by_city wp nowIso loc = none ∧
          st₂.weather = st.weather ∧ st₂.fetchedLocations = st.fetchedLocations ∧
          st₂.weatherCalls = st.weatherCalls ++ [loc]) ∨
       (∃ loc w, extract_location_from_article a = some loc ∧
          st.fetchedLocations.contains loc = false ∧
          get_weather_by_city wp nowIso loc = some w ∧
          st₂.weather = st.weather ++ [w] ∧
          st₂.fetchedLocations = st.fetchedLocations ++ [loc] ∧
          st₂.weatherCalls = st.weatherCalls ++ [loc])) := by
  simp only [processArticle]
  cases hl : extract_location_from_article a with
  | none =>
    exact ⟨_, rfl, rfl, rfl, rfl, rfl, Or.inl ⟨rfl, rfl, rfl, rfl⟩⟩
  | some loc =>
    dsimp only
    by_cases hm : st.fetchedLocations.contains loc
    · rw [if_pos hm]
      exact ⟨_, rfl, rfl, rfl, rfl, rfl, Or.inr (Or.inl ⟨loc, rfl, hm, rfl, rfl, rfl⟩)⟩
    · rw [if_neg hm]
      cases hw : get_weather_by_city wp nowIso loc with
      | none =>
        exact ⟨_, rfl, rfl, rfl, rfl, rfl,
          Or.inr (Or.inr (Or.inl ⟨loc, rfl, Bool.of_not_eq_true hm, hw, rfl, rfl, rfl⟩))⟩
      | some w =>
        exact ⟨_, rfl, rfl, rfl, rfl, rfl,
          Or.inr (Or.inr (Or.inr ⟨loc, w, rfl, Bool.of_not_eq_true hm, hw, rfl, rfl, rfl⟩))⟩

/-- The weather half of the scan invariant: the weather-call trace
coincides with the seen-locations set, which has no duplicates. -/
def WeatherInv (st : FetchState) : Prop :=
  st.weatherCalls = st.fetchedLocations ∧ st.fetchedLocations.Nodup

/-- The stock half of the scan invariant: the stock-call trace coincides
with the seen-tickers set, which has no duplicates, and every recorded
call contributed exactly one collected record. -/
def StockInv (st : FetchState) : Prop :=
  st.stockCalls = st.fetchedTickers ∧ st.fetchedTickers.Nodup ∧
  st.stocks.length = st.stockCalls.length

theorem stockLoop_stockInv (sp : String → Option (List PriceEntry)) (nowIso : String)
    (hs : ∀ t, (get_stock_price sp nowIso t).isSome)
    (cs : List (String × String)) (st : FetchState) (h : StockInv st) :
    StockInv (stockLoop sp nowIso cs st) := by
  induction cs generalizing st with
  | nil => exact h
  | cons p rest ih =>
    obtain ⟨ticker, cname⟩ := p
    obtain ⟨h3, h4, h5⟩ := h
    simp only [stockLoop]
    by_cases hm : st.fetchedTickers.contains ticker
    · rw [if_pos hm]
      exact ih st ⟨h3, h4, h5⟩
    · rw [if_neg hm]
      cases hg : get_stock_price sp nowIso ticker with
      | none =>
        have hst := hs ticker
        rw [hg] at hst
        simp at hst
      | some s =>
        apply ih
        have hnm : ticker ∉ st.fetchedTickers := by
          simpa [List.contains] using hm
        exact ⟨by dsimp only; rw [h3],
          h4.append (List.nodup_singleton _) (List.disjoint_singleton.mpr hnm),
          by dsimp only; simp [h5]⟩

theorem processArticle_stockInv (wp : String → Option WeatherResp)
    (sp : String → Option (List PriceEntry)) (nowIso : String)
    (hs : ∀ t, (get_stock_price sp nowIso t).isSome)
    (st : FetchState) (a : Article) (h : StockInv st) :
    StockInv (processArticle wp sp nowIso st a) := by
  obtain ⟨st₂, heq, _, hstocks, hft, hsc, _⟩ := processArticle_eq wp sp nowIso st a
  rw [heq]
  apply stockLoop_stockInv sp nowIso hs
  obtain ⟨h3, h4, h5⟩ := h
  exact ⟨by rw [hsc, hft, h3], by rw [hft]; exact h4, by rw [hstocks, hsc, h5]⟩

theorem processArticle_weatherInv (wp : String → Option WeatherResp)
    (sp : String → Option (List PriceEntry)) (nowIso : String)
    (hw : ∀ c, (get_weather_by_city wp nowIso c).isSome)
    (st : FetchState) (a : Article) (h : WeatherInv st) :
    WeatherInv (processArticle wp sp nowIso st a) := by
  obtain ⟨st₂, heq, _, _, _, _, hcases⟩ := processArticle_eq wp sp nowIso st a
  have hfr := stockLoop_frame sp nowIso (extract_companies_from_article a) st₂
  obtain ⟨h1, h2⟩ := h
  rw [heq]
  rcases hcases with ⟨_, _, hfl, hwc⟩ | ⟨loc, _, _, _, hfl, hwc⟩ |
    ⟨loc, _, _, hnone, _, hfl, hwc⟩ | ⟨loc, w, _, hm, hsome, _, hfl, hwc⟩
  · exact ⟨by rw [hfr.2.2.2, hfr.2.2.1, hwc, hfl, h1],
      by rw [hfr.2.2.1, hfl]; exact h2⟩
  · exact ⟨by rw [hfr.2.2.2, hfr.2.2.1, hwc, hfl, h1],
      by rw [hfr.2.2.1, hfl]; exact h2⟩
  · have hwl := hw loc
    rw [hnone] at hwl
    simp at hwl
  · have hnm : loc ∉ st.fetchedLocations := by
      simp [List.contains] at hm
      exact hm
    exact ⟨by rw [hfr.2.2.2, hfr.2.2.1, hwc, hfl, h1], by
      rw [hfr.2.2.1, hfl]
      exact h2.append (List.nodup_singleton _) (List.disjoint_singleton.mpr hnm)⟩

theorem scanArticles_stockInv (wp : String → Option WeatherResp)
    (sp : String → Option (List PriceEntry)) (nowIso : String)
    (articles : List Article)
    (hs : ∀ t, (get_stock_price sp nowIso t).isSome) :
    StockInv (scanArticles wp sp nowIso articles) := by
  suffices h : ∀ st, StockInv st →
      StockInv (articles.foldl (processArticle wp sp nowIso) st) by
    exact h initState ⟨rfl, List.nodup_nil, rfl⟩
  induction articles with
  | nil => intro st h; exact h
  | cons a rest ih =>
    intro st h
    exact ih _ (processArticle_stockInv wp sp nowIso hs st a h)

theorem scanArticles_weatherInv (wp : String → Option WeatherResp)
    (sp : String → Option (List PriceEntry)) (nowIso : String)
    (articles : List Article)
    (hw : ∀ c, (get_weather_by_city wp nowIso c).isSome) :
    WeatherInv (scanArticles wp sp nowIso articles) := by
  suffices h : ∀ st, WeatherInv st →
      WeatherInv (articles.foldl (processArticle wp sp nowIso) st) by
    exact h initState ⟨rfl, List.nodup_nil⟩
  induction articles with
  | nil => intro st h; exact h
  | cons a rest ih =>
    intro st h
    exact ih _ (processArticle_weatherInv wp sp nowIso hw st a h)

/-- When the scan collected at least one stock record, the S&P 500
fallback block is skipped and `fetch_all_data` returns the scan state
unchanged. -/
theorem fetch_all_data_of_stocks_ne_nil (wp : String → Option WeatherResp)
    (sp : String → Option (List PriceEntry)) (nowIso : String)
    (articles : List Article)
    (h : (scanArticles wp sp nowIso articles).stocks ≠ []) :
    fetch_all_data wp sp nowIso articles = scanArticles wp sp nowIso articles := by
  simp only [fetch_all_data]
  rw [if_neg (by simpa [List.isEmpty_iff] using h)]

/-- The weather collection is never touched by the S&P 500 fallback
block: `fetch_all_data` returns exactly the scan's weather list. -/
theorem fetch_all_data_weather (wp : String → Option WeatherResp)
    (sp : String → Option (List PriceEntry)) (nowIso : String)
    (articles : List Article) :
    (fetch_all_data wp sp nowIso articles).weather
      = (scanArticles wp sp nowIso articles).weather := by
  simp only [fetch_all_data]
  split
  · split <;> rfl
  · rfl

/-- A one-word article whose text mentions France (and no company). -/
def artFrance : Article :=
  { title := some "France", description := none, url := none,
    sourceName := none, publishedAt := none }

/-- Claim C3 (counterexample).  With a weather provider that always fails
and two articles both deriving the location Paris, `fetch_all_data` issues
TWO weather lookups for the single distinct location Paris: a location is
marked as fetched only when the provider returns data, so a failed lookup
is reissued for the next article with the same location. -/
theorem C3_two_weather_calls_same_location :
    (fetch_all_data (fun _ => none) (fun _ => none) "2024-01-01T00:00:00"
        [artFrance, artFrance]).weatherCalls = ["Paris", "Paris"] ∧
    ¬ (fetch_all_data (fun _ => none) (fun _ => none) "2024-01-01T00:00:00"
        [artFrance, artFrance]).weatherCalls.Nodup := by
  constructor
  · decide
  · decide

/-- Claim C3 (amended).  Within one `fetch_all_data` invocation, whenever
every weather lookup and every stock lookup returns data, at most one
weather call is issued per distinct derived location and at most one stock
call per distinct ticker (the call traces have no duplicates); without
that success assumption a failed lookup may be reissued (see the
counterexample). -/
theorem C3_dedup_per_key (wp : String → Option WeatherResp)
    (sp : String → Option (List PriceEntry)) (nowIso : String)
    (articles : List Article)
    (hw : ∀ c, (get_weather_by_city wp nowIso c).isSome)
    (hs : ∀ t, (get_stock_price sp nowIso t).isSome) :
    (fetch_all_data wp sp nowIso articles).weatherCalls.Nodup ∧
    (fetch_all_data wp sp nowIso articles).stockCalls.Nodup := by
  obtain ⟨h1, h2⟩ := scanArticles_weatherInv wp sp nowIso articles hw
  obtain ⟨h3, h4, h5⟩ := scanArticles_stockInv wp sp nowIso articles hs
  simp only [fetch_all_data]
  split
  · rename_i hempty
    have hstocks : (scanArticles wp sp nowIso articles).stocks = [] := by
      simpa [List.isEmpty_iff] using hempty
    have hsc : (scanArticles wp sp nowIso articles).stockCalls = [] := by
      rw [hstocks] at h5
      exact List.length_eq_zero.mp h5.symm
    split
    · exact ⟨by dsimp only; rw [h1]; exact h2,
        by dsimp only; rw [hsc]; exact List.nodup_singleton _⟩
    · exact ⟨by dsimp only; rw [h1]; exact h2,
        by dsimp only; rw [hsc]; exact List.nodup_singleton _⟩
  · exact ⟨by rw [h1]; exact h2, by rw [h3]; exact h4⟩

/-- An always-succeeding weather provider that echoes the queried city. -/
def wpEcho : String → Option WeatherResp :=
  fun c => some { name := some c, temp := 70, feelsLike := 68, humidity := 50,
                  wdescription := "clear sky", icon := "01d" }

/-- An always-succeeding stock provider: one price entry with a close. -/
def spConst : String → Option (List PriceEntry) :=
  fun _ => some [{ close := some 100, adjClose := none, date := some "2024-01-02" }]

/-- Claim C3 (witness): with an always-succeeding stub provider and two
articles deriving the same location, the traces are duplicate-free. -/
theorem C3_dedup_per_key_witness :
    (fetch_all_data wpEcho spConst "2024-01-01T00:00:00"
        [artFrance, artFrance]).weatherCalls.Nodup ∧
    (fetch_all_data wpEcho spConst "2024-01-01T00:00:00"
        [artFrance, artFrance]).stockCalls.Nodup :=
  C3_dedup_per_key wpEcho spConst "2024-01-01T00:00:00" [artFrance, artFrance]
    (fun _ => rfl) (fun _ => rfl)

/-- Claim C6.  If the article scan collected no stock record, the
returned stock collection is exactly the S&P 500 proxy record (ticker
"SPY", company name "S&P 500 ETF") when the proxy lookup returns data, and
empty when it fails; if the scan collected at least one stock record, the
proxy lookup is not performed (the state, trace included, is returned
as-is).  The weather collection has no analogous fallback: it is returned
exactly as collected, empty or not. -/
theorem C6_sp500_fallback (wp : String → Option WeatherResp)
    (sp : String → Option (List PriceEntry)) (nowIso : String)
    (articles : List Article) :
    ((scanArticles wp sp nowIso articles).stocks = [] →
      (fetch_all_data wp sp nowIso articles).stocks =
        (match get_sp500_price sp nowIso with
         | none => []
         | some r => [r]) ∧
      (∀ r, get_sp500_price sp nowIso = some r →
        r.ticker = "SPY" ∧ r.company_name = some "S&P 500 ETF")) ∧
    ((scanArticles wp sp nowIso articles).stocks ≠ [] →
      fetch_all_data wp sp nowIso articles = scanArticles wp sp nowIso articles) ∧
    (fetch_all_data wp sp nowIso articles).weather
      = (scanArticles wp sp nowIso articles).weather := by
  refine ⟨?_, fetch_all_data_of_stocks_ne_nil wp sp nowIso articles,
    fetch_all_data_weather wp sp nowIso articles⟩
  intro h
  constructor
  · simp only [fetch_all_data]
    rw [if_pos (by simp [List.isEmpty_iff, h])]
    cases hsp : get_sp500_price sp nowIso with
    | none => simp [h]
    | some r => simp [h]
  · intro r hr
    unfold get_sp500_price at hr
    cases hg : get_stock_price sp nowIso "SPY" with
    | none => rw [hg] at hr; cases hr
    | some s => rw [hg] at hr; cases hr; exact ⟨rfl, rfl⟩

/-- Claim C6 (witness): an empty batch with a succeeding proxy lookup
yields exactly the SPY proxy record; with a failing proxy lookup it yields
the empty stock collection. -/
theorem C6_sp500_fallback_witness :
    (fetch_all_data (fun _ => none) spConst "2024-01-01T00:00:00" []).stocks
      = [{ ticker := "SPY", price := 100, date := "2024-01-02",
           company_name := some "S&P 500 ETF" }] ∧
    (fetch_all_data (fun _ => none) (fun _ => none) "2024-01-01T00:00:00" []).stocks
      = [] := by
  constructor
  · have h := (C6_sp500_fallback (fun _ => none) spConst
      "2024-01-01T00:00:00" []).1 rfl
    exact h.1.trans (by decide)
  · have h := (C6_sp500_fallback (fun _ => none) (fun _ => none)
      "2024-01-01T00:00:00" []).1 rfl
    exact h.1.trans (by decide)

/-- Under a provider that echoes (or omits) the queried city name, the
normalized weather record's location equals the queried city. -/
theorem weather_loc_of_echo (wp : String → Option WeatherResp) (nowIso : String)
    (loc : String) (w : WeatherRecord)
    (hEcho : ∀ city r, wp city = some r → r.name = none ∨ r.name = some city)
    (hsome : get_weather_by_city wp nowIso loc = some w) :
    w.location = loc := by
  unfold get_weather_by_city at hsome
  cases hwp : wp loc with
  | none => rw [hwp] at hsome; cases hsome
  | some d =>
    rw [hwp] at hsome
    cases hsome
    rcases hEcho loc d hwp with h | h <;> simp [h]

theorem processArticle_weather_link (wp : String → Option WeatherResp)
    (sp : String → Option (List PriceEntry)) (nowIso : String)
    (hEcho : ∀ city r, wp city = some r → r.name = none ∨ r.name = some city)
    (st : FetchState) (a : Article)
    (hInv : ∀ w ∈ st.weather, ∃ n ∈ st.news, n.location = some w.location) :
    ∀ w ∈ (processArticle wp sp nowIso st a).weather,
      ∃ n ∈ (processArticle wp sp nowIso st a).news,
        n.location = some w.location := by
  obtain ⟨st₂, heq, hnews, _, _, _, hcases⟩ := processArticle_eq wp sp nowIso st a
  rw [heq, (stockLoop_frame sp nowIso _ _).2.1, (stockLoop_frame sp nowIso _ _).1]
  intro w hwmem
  rcases hcases with ⟨_, hwe, _, _⟩ | ⟨loc, _, _, hwe, _, _⟩ |
    ⟨loc, _, _, _, hwe, _, _⟩ | ⟨loc, w', hl, _, hsome, hwe, _, _⟩
  · rw [hwe] at hwmem
    obtain ⟨n, hn, hnl⟩ := hInv w hwmem
    exact ⟨n, by rw [hnews]; exact List.mem_append_left _ hn, hnl⟩
  · rw [hwe] at hwmem
    obtain ⟨n, hn, hnl⟩ := hInv w hwmem
    exact ⟨n, by rw [hnews]; exact List.mem_append_left _ hn, hnl⟩
  · rw [hwe] at hwmem
    obtain ⟨n, hn, hnl⟩ := hInv w hwmem
    exact ⟨n, by rw [hnews]; exact List.mem_append_left _ hn, hnl⟩
  · rw [hwe] at hwmem
    rcases List.mem_append.mp hwmem with hold | hnew
    · obtain ⟨n, hn, hnl⟩ := hInv w hold
      exact ⟨n, by rw [hnews]; exact List.mem_append_left _ hn, hnl⟩
    · have hww : w = w' := by simpa using hnew
      refine ⟨newsItemOfArticle nowIso a,
        by rw [hnews]; exact List.mem_append_right _ (by simp), ?_⟩
      have hwl : w'.location = loc :=
        weather_loc_of_echo wp nowIso loc w' hEcho hsome
      rw [hww, hwl]
      exact hl

theorem scanArticles_weather_link (wp : String → Option WeatherResp)
    (sp : String → Option (List PriceEntry)) (nowIso : String)
    (articles : List Article)
    (hEcho : ∀ city r, wp city = some r → r.name = none ∨ r.name = some city) :
    ∀ w ∈ (scanArticles wp sp nowIso articles).weather,
      ∃ n ∈ (scanArticles wp sp nowIso articles).news,
        n.location = some w.location := by
  suffices h : ∀ st, (∀ w ∈ st.weather, ∃ n ∈ st.news, n.location = some w.location) →
      ∀ w ∈ (articles.foldl (processArticle wp sp nowIso) st).weather,
        ∃ n ∈ (articles.foldl (processArticle wp sp nowIso) st).news,
          n.location = some w.location by
    exact h initState (by intro w hw; cases hw)
  induction articles with
  | nil => intro st h; exact h
  | cons a rest ih =>
    intro st h
    exact ih _ (processArticle_weather_link wp sp nowIso hEcho st a h)

/-- A weather provider that reports a city name different from the one
queried (OpenWeatherMap's `name` field is what the code stores). -/
def wpGotham : String → Option WeatherResp :=
  fun c => if c = "Paris"
    then some { name := some "Gotham City", temp := 60, feelsLike := 59,
                humidity := 40, wdescription := "mist", icon := "50d" }
    else none

/-- Claim C8 (counterexample).  `get_weather_by_city` stores the
provider-reported `name`, not the queried city: with a provider answering
the Paris query with name "Gotham City", the batch's single weather record
has a location matching no news item's location. -/
theorem C8_weather_location_mismatch :
    ((fetch_all_data wpGotham (fun _ => none) "2024-01-01T00:00:00"
        [artFrance]).news.map (fun n => n.location)) = [some "Paris"] ∧
    ((fetch_all_data wpGotham (fun _ => none) "2024-01-01T00:00:00"
        [artFrance]).weather.map (fun w => w.location)) = ["Gotham City"] ∧
    ¬ (∀ w ∈ (fetch_all_data wpGotham (fun _ => none) "2024-01-01T00:00:00"
          [artFrance]).weather,
        ∃ n ∈ (fetch_all_data wpGotham (fun _ => none) "2024-01-01T00:00:00"
            [artFrance]).news,
          n.location = some w.location) := by
  refine ⟨by decide, by decide, by decide⟩

/-- Claim C8 (amended).  Every returned weather record results from a
lookup keyed by some news item's derived location, and its stored location
is the provider-reported name for that query; hence whenever the provider
echoes the queried city name (or omits the name field, in which case the
query key itself is stored), every weather record's location equals the
location of some news item in the returned news collection. -/
theorem C8_weather_location_link (wp : String → Option WeatherResp)
    (sp : String → Option (List PriceEntry)) (nowIso : String)
    (articles : List Article)
    (hEcho : ∀ city r, wp city = some r → r.name = none ∨ r.name = some city) :
    ∀ w ∈ (fetch_all_data wp sp nowIso articles).weather,
      ∃ n ∈ (fetch_all_data wp sp nowIso articles).news,
        n.location = some w.location := by
  rw [fetch_all_data_weather, fetch_all_data_news]
  exact scanArticles_weather_link wp sp nowIso articles hEcho

/-- Claim C8 (witness): with an echoing provider and one Paris-deriving
article, the single weather record's location is carried by a news item. -/
theorem C8_weather_location_link_witness :
    ∃ n ∈ (fetch_all_data wpEcho (fun _ => none) "2024-01-01T00:00:00"
        [artFrance]).news, n.location = some "Paris" := by
  have h := C8_weather_location_link wpEcho (fun _ => none) "2024-01-01T00:00:00"
    [artFrance] (by intro city r hr; cases hr; exact Or.inr rfl)
  exact h { location := "Paris", temperature := 70, feels_like := 68, humidity := 50,
            description := "clear sky", icon := "01d", date := "2024-01-01T00:00:00" }
    (by decide)

/-- Filtering the extracted companies by a ticker predicate is the same
as extracting from the table filtered by that predicate (the scan keeps
table order). -/
theorem findCompanies_filter (tl : String) (q : String → Bool)
    (l : List (String × String)) :
    (findCompanies tl l).filter (fun e => q e.1)
      = findCompanies tl (l.filter (fun p => q p.2)) := by
  induction l with
  | nil => rfl
  | cons p rest ih =>
    obtain ⟨company, ticker⟩ := p
    by_cases h : strIn (lowerStr company) tl
    · by_cases hq : q ticker <;>
        simp [findCompanies, h, hq, List.filter_cons, ih]
    · by_cases hq : q ticker <;>
        simp [findCompanies, h, hq, List.filter_cons, ih]

/-- `get_stock_price` always labels its record with the upper-cased
queried ticker. -/
theorem get_stock_price_ticker (sp : String → Option (List PriceEntry))
    (nowIso : String) (t : String) (r : StockRecord)
    (h : get_stock_price sp nowIso t = some r) : r.ticker = upperStr t := by
  unfold get_stock_price at h
  cases hsp : sp t with
  | none => rw [hsp] at h; cases h
  | some l =>
    rw [hsp] at h
    cases l with
    | nil => cases h
    | cons e rest => cases h; rfl

/-- The stock loop only appends to the collected stock list. -/
theorem stockLoop_stocks_mono (sp : String → Option (List PriceEntry))
    (nowIso : String) (cs : List (String × String)) (st : FetchState) :
    ∃ l, (stockLoop sp nowIso cs st).stocks = st.stocks ++ l := by
  induction cs generalizing st with
  | nil => exact ⟨[], by simp [stockLoop]⟩
  | cons p rest ih =>
    obtain ⟨t, c⟩ := p
    simp only [stockLoop]
    by_cases hc : st.fetchedTickers.contains t
    · rw [if_pos hc]
      exact ih st
    · rw [if_neg hc]
      cases hg : get_stock_price sp nowIso t with
      | none => exact ih _
      | some s =>
        obtain ⟨l, hl⟩ := ih _
        exact ⟨{ s with company_name := some c } :: l, by rw [hl]; simp⟩

/-- The stock loop only appends to the seen-tickers set. -/
theorem stockLoop_fetched_mono (sp : String → Option (List PriceEntry))
    (nowIso : String) (cs : List (String × String)) (st : FetchState) :
    ∃ l, (stockLoop sp nowIso cs st).fetchedTickers = st.fetchedTickers ++ l := by
  induction cs generalizing st with
  | nil => exact ⟨[], by simp [stockLoop]⟩
  | cons p rest ih =>
    obtain ⟨t, c⟩ := p
    simp only [stockLoop]
    by_cases hc : st.fetchedTickers.contains t
    · rw [if_pos hc]
      exact ih st
    · rw [if_neg hc]
      cases hg : get_stock_price sp nowIso t with
      | none => exact ih _
      | some s =>
        obtain ⟨l, hl⟩ := ih _
        exact ⟨t :: l, by rw [hl]; simp⟩

/-- When every stock lookup succeeds, every ticker appearing in the
company list ends up in the seen-tickers set after the loop. -/
theorem stockLoop_mem_fetchedTickers (sp : String → Option (List PriceEntry))
    (nowIso : String) (hs : ∀ t, (get_stock_price sp nowIso t).isSome)
    (t c : String) :
    ∀ (cs : List (String × String)) (st : FetchState), (t, c) ∈ cs →
      t ∈ (stockLoop sp nowIso cs st).fetchedTickers := by
  intro cs
  induction cs with
  | nil => intro st hmem; cases hmem
  | cons p rest ih =>
    intro st hmem
    obtain ⟨t', c'⟩ := p
    simp only [stockLoop]
    rcases List.mem_cons.mp hmem with heq | htail
    · obtain ⟨rfl, rfl⟩ := Prod.mk.injEq .. ▸ heq
      by_cases hc : st.fetchedTickers.contains t
      · rw [if_pos hc]
        obtain ⟨l, hl⟩ := stockLoop_fetched_mono sp nowIso rest st
        rw [hl]
        exact List.mem_append_left _ (by simpa [List.contains] using hc)
      · rw [if_neg hc]
        cases hg : get_stock_price sp nowIso t with
        | none =>
          have hst := hs t
          rw [hg] at hst
          simp at hst
        | some s =>
          obtain ⟨l, hl⟩ := stockLoop_fetched_mono sp nowIso rest _
          rw [hl]
          exact List.mem_append_left _ (List.mem_append_right _ (by simp))
    · by_cases hc : st.fetchedTickers.contains t'
      · rw [if_pos hc]
        exact ih st htail
      · rw [if_neg hc]
        cases hg : get_stock_price sp nowIso t' with
        | none => exact ih _ htail
        | some s => exact ih _ htail

/-- When every stock lookup succeeds and `tk` is not yet seen, the loop
collects, for the FIRST company-list entry carrying ticker `tk`, a record
labelled with (the upper-casing of) `tk` and that entry's company name. -/
theorem stockLoop_first_fetch (sp : String → Option (List PriceEntry))
    (nowIso : String) (hs : ∀ t, (get_stock_price sp nowIso t).isSome)
    (tk nm : String) (l' : List (String × String)) :
    ∀ (cs : List (String × String)) (st : FetchState), tk ∉ st.fetchedTickers →
      cs.filter (fun e => e.1 == tk) = (tk, nm) :: l' →
      ∃ s ∈ (stockLoop sp nowIso cs st).stocks,
        s.ticker = upperStr tk ∧ s.company_name = some nm := by
  intro cs
  induction cs with
  | nil => intro st _ hfil; cases hfil
  | cons p rest ih =>
    intro st hnm hfil
    obtain ⟨t, c⟩ := p
    by_cases ht : (t == tk : Bool)
    · have ht' : t = tk := by simpa using ht
      rw [List.filter_cons_of_pos (by simpa using ht)] at hfil
      obtain ⟨hpair, -⟩ := List.cons.injEq .. ▸ hfil
      obtain ⟨-, hc⟩ := Prod.mk.injEq .. ▸ hpair
      subst ht' hc
      simp only [stockLoop]
      have hcont : ¬ st.fetchedTickers.contains t = true := by
        simpa [List.contains] using hnm
      rw [if_neg hcont]
      cases hg : get_stock_price sp nowIso t with
      | none =>
        have hst := hs t
        rw [hg] at hst
        simp at hst
      | some s =>
        obtain ⟨l, hl⟩ := stockLoop_stocks_mono sp nowIso rest _
        refine ⟨{ s with company_name := some c }, ?_, ?_, rfl⟩
        · rw [hl]
          exact List.mem_append_left _ (List.mem_append_right _ (by simp))
        · exact get_stock_price_ticker sp nowIso t s hg
    · rw [List.filter_cons_of_neg (by simpa using ht)] at hfil
      simp only [stockLoop]
      by_cases hc : st.fetchedTickers.contains t
      · rw [if_pos hc]
        exact ih st hnm hfil
      · rw [if_neg hc]
        cases hg : get_stock_price sp nowIso t with
        | none => exact ih _ hnm hfil
        | some s =>
          apply ih _ _ hfil
          intro hmem
          rcases List.mem_append.mp hmem with hmem | hmem
          · exact hnm hmem
          · have : tk = t := by simpa using hmem
            exact ht (by simp [this])

/-- An article mentioning both Meta and Facebook (and no other table
company, country or city). -/
def artMetaFb : Article :=
  { title := some "Meta and Facebook rebrand", description := none,
    url := none, sourceName := none, publishedAt := none }

/-- Claim C7 (counterexample).  The two META entries extracted from an
article mentioning both names are NOT always collapsed to a single stock
fetch: with a failing stock provider the ticker is never marked as
fetched, so the orchestrator issues two META lookups for the one article
(plus the S&P 500 fallback lookup). -/
theorem C7_double_meta_fetch_on_failure :
    extract_companies_from_article artMetaFb
      = [("META", "Meta"), ("META", "Facebook")] ∧
    (fetch_all_data (fun _ => none) (fun _ => none) "2024-01-01T00:00:00"
        [artMetaFb]).stockCalls = ["META", "META", "SPY"] ∧
    (fetch_all_data (fun _ => none) (fun _ => none) "2024-01-01T00:00:00"
        [artMetaFb]).stockCalls.count "META" ≠ 1 := by
  refine ⟨by decide, by decide, by decide⟩

/-- Claim C7 (amended).  For every article whose text mentions both
"Meta" and "Facebook" case-insensitively, `extract_companies_from_article`
returns exactly two META-tickered entries, ("META","Meta") then
("META","Facebook"), in table order; and when the article is processed as
a batch with a stock provider whose lookups return data, the
dedup-by-ticker issues exactly one META fetch, and the collected META
record keeps the first-encountered company name "Meta".  (When the lookup
fails it is reissued for the second entry — see the counterexample.) -/
theorem C7_meta_facebook_dedup (a : Article)
    (hM : strIn "meta" (lowerStr (articleText a)) = true)
    (hF : strIn "facebook" (lowerStr (articleText a)) = true) :
    (extract_companies_from_article a).filter (fun e => e.1 == "META")
      = [("META", "Meta"), ("META", "Facebook")] ∧
    ∀ wp sp nowIso, (∀ t, (get_stock_price sp nowIso t).isSome) →
      ((fetch_all_data wp sp nowIso [a]).stockCalls.count "META" = 1 ∧
       ∃ s ∈ (fetch_all_data wp sp nowIso [a]).stocks,
         s.ticker = "META" ∧ s.company_name = some "Meta") := by
  have h1 : (extract_companies_from_article a).filter (fun e => e.1 == "META")
      = [("META", "Meta"), ("META", "Facebook")] := by
    unfold extract_companies_from_article
    rw [findCompanies_filter (lowerStr (articleText a)) (fun t => t == "META")
      companyTickers]
    have htab : companyTickers.filter (fun p => p.2 == "META")
        = [("Meta", "META"), ("Facebook", "META")] := by decide
    rw [htab]
    have e1 : strIn (lowerStr "Meta") (lowerStr (articleText a)) = true := hM
    have e2 : strIn (lowerStr "Facebook") (lowerStr (articleText a)) = true := hF
    simp [findCompanies, e1, e2]
  refine ⟨h1, ?_⟩
  intro wp sp nowIso hs
  have hscan : scanArticles wp sp nowIso [a]
      = processArticle wp sp nowIso initState a := by
    simp [scanArticles]
  obtain ⟨st₂, heq, -, hstocks, hft, hsc, -⟩ :=
    processArticle_eq wp sp nowIso initState a
  have hft0 : st₂.fetchedTickers = [] := by rw [hft]; rfl
  have hsc0 : st₂.stockCalls = [] := by rw [hsc]; rfl
  have hst0 : st₂.stocks = [] := by rw [hstocks]; rfl
  have hrec := stockLoop_first_fetch sp nowIso hs "META" "Meta"
    [("META", "Facebook")] (extract_companies_from_article a) st₂
    (by rw [hft0]; intro h; cases h) h1
  have hMmem : ("META", "Meta") ∈ extract_companies_from_article a := by
    have hmemf : ("META", "Meta")
        ∈ (extract_companies_from_article a).filter (fun e => e.1 == "META") := by
      rw [h1]
      exact List.mem_cons_self _ _
    exact List.mem_of_mem_filter hmemf
  have hmem2 : "META" ∈ (stockLoop sp nowIso
      (extract_companies_from_article a) st₂).fetchedTickers :=
    stockLoop_mem_fetchedTickers sp nowIso hs "META" "Meta"
      (extract_companies_from_article a) st₂ hMmem
  obtain ⟨g3, g4, g5⟩ := stockLoop_stockInv sp nowIso hs
    (extract_companies_from_article a) st₂
    ⟨by rw [hsc0, hft0], by rw [hft0]; exact List.nodup_nil,
     by simp [hst0, hsc0]⟩
  have hcnt : (stockLoop sp nowIso
      (extract_companies_from_article a) st₂).stockCalls.count "META" = 1 := by
    rw [g3]
    exact List.count_eq_one_of_mem g4 hmem2
  obtain ⟨s, hsmem, hstk, hsnm⟩ := hrec
  rw [show upperStr "META" = "META" by decide] at hstk
  have hne : (scanArticles wp sp nowIso [a]).stocks ≠ [] := by
    rw [hscan, heq]
    intro h0
    rw [h0] at hsmem
    cases hsmem
  have hfetch := fetch_all_data_of_stocks_ne_nil wp sp nowIso [a] hne
  rw [hfetch, hscan, heq]
  exact ⟨hcnt, s, hsmem, hstk, hsnm⟩

/-- Claim C7 (witness): the Meta-and-Facebook article against an
always-succeeding stub provider yields one META fetch. -/
theorem C7_meta_facebook_dedup_witness :
    (extract_companies_from_article artMetaFb).filter (fun e => e.1 == "META")
      = [("META", "Meta"), ("META", "Facebook")] ∧
    (fetch_all_data wpEcho spConst "2024-01-01T00:00:00"
        [artMetaFb]).stockCalls.count "META" = 1 := by
  have h := C7_meta_facebook_dedup artMetaFb (by decide) (by decide)
  exact ⟨h.1, (h.2 wpEcho spConst "2024-01-01T00:00:00" (fun _ => rfl)).1⟩

end EzDash
